import Mathlib

/-!
Shallow embedding of `my-simple-server.js` (bfrances/mcp-pizzeria):
an in-memory pizza catalog/cart MCP server with an HTTP read-only view.

JS numbers are modelled as exact rationals (`ℚ`); the special values
NaN/±Infinity that can arise from `Number(...)` coercion are modelled by
the inductive `JsNum`.  JS `Map` (which preserves insertion order, updates
in place, appends new keys) is modelled as an association list with
`mapGet` / `mapSet` / `mapDelete`.
-/

namespace Pizzeria

/-- `round2` embeds `round2(n) = Math.round(n * 100) / 100` (line 134);
JS `Math.round x = ⌊x + 1/2⌋` (half towards +∞). -/
def round2 (n : ℚ) : ℚ :=
  ((⌊n * 100 + 1 / 2⌋ : ℤ) : ℚ) / 100

/-- A catalog pizza after normalization (data model of the loaded catalog). -/
structure Pizza where
  name : String
  price : ℚ
  ingredients : List String
  allergens : List String
  deriving Repr, DecidableEq

/-- A cart line as stored in the `CART` map: `{ name, unitPrice, quantity }`
(line 111).  `quantity` is an integer because the tool boundary only lets
integers through. -/
structure CartItem where
  name : String
  unitPrice : ℚ
  quantity : ℤ
  deriving Repr, DecidableEq

/-- The cart: `Map<nameLower, CartItem>` modelled as an insertion-ordered
association list. -/
abbrev Cart : Type := List (String × CartItem)

/-- `CART.get k` -/
def mapGet (m : List (String × CartItem)) (k : String) : Option CartItem :=
  (m.find? (fun kv => kv.1 = k)).map (fun kv => kv.2)

/-- `CART.set k v`: updates an existing key in place (keeping its position,
as a JS `Map` does) or appends a new key at the end. -/
def mapSet (m : List (String × CartItem)) (k : String) (v : CartItem) :
    List (String × CartItem) :=
  match m with
  | [] => [(k, v)]
  | kv :: rest =>
      if kv.1 = k then (k, v) :: rest else kv :: mapSet rest k v

/-- `CART.delete k` -/
def mapDelete (m : List (String × CartItem)) (k : String) :
    List (String × CartItem) :=
  match m with
  | [] => []
  | kv :: rest =>
      if kv.1 = k then rest else kv :: mapDelete rest k

/-- `findPizzaByName` (lines 114-117): case-insensitive exact match of the
trimmed, lower-cased query against the catalog names. -/
def findPizzaByName (pizzas : List Pizza) (name : String) : Option Pizza :=
  let n := name.trim.toLower
  pizzas.find? (fun p => p.name.toLower = n)

/-- One displayed cart line as produced by `cartToArray` (lines 119-126). -/
structure DisplayItem where
  name : String
  unitPrice : ℚ
  quantity : ℤ
  lineTotal : ℚ
  deriving Repr, DecidableEq

/-- `cartToArray` (lines 119-126): projects the map values, rounding each
`lineTotal` to 2 decimals. -/
def cartToArray (cart : Cart) : List DisplayItem :=
  cart.map (fun kv =>
    { name := kv.2.name
      unitPrice := kv.2.unitPrice
      quantity := kv.2.quantity
      lineTotal := round2 (kv.2.unitPrice * (kv.2.quantity : ℚ)) })

/-- The snapshot returned by `cartTotals` (lines 128-132). -/
structure Totals where
  items : List DisplayItem
  subtotal : ℚ
  currency : String
  deriving Repr, DecidableEq

/-- `cartTotals` (lines 128-132): NOTE the subtotal reduces over the already
rounded `lineTotal` values of `cartToArray`, then rounds again. -/
def cartTotals (cart : Cart) : Totals :=
  let items := cartToArray cart
  let subtotal := round2 (items.foldl (fun s it => s + it.lineTotal) 0)
  { items := items, subtotal := subtotal, currency := "EUR" }

/-- A tool handler result: `{ content: [...], isError?: boolean }`.
`content` keeps only the text payloads. -/
structure ToolResult where
  content : List String
  isError : Bool := false
  deriving Repr, DecidableEq

/-- `add_to_cart` handler body (lines 195-223), for an input that passed the
zod boundary.  Returns the response together with the new cart state. -/
def addToCart (pizzas : List Pizza) (cart : Cart) (name : String)
    (quantity : ℤ) : ToolResult × Cart :=
  match findPizzaByName pizzas name with
  | none =>
      let msg := "Pizza introuvable: \"" ++ name ++
        "\". Utilise \x27list_pizzas\x27 pour voir les noms."
      ({ content := [msg], isError := true }, cart)
  | some pizza =>
      let key := pizza.name.toLower
      let current := (mapGet cart key).getD
        { name := pizza.name, unitPrice := pizza.price, quantity := 0 }
      let current := { current with quantity := current.quantity + quantity }
      let msg := "Ajouté: " ++ toString quantity ++ " × " ++ pizza.name
      ({ content := [msg], isError := false }, mapSet cart key current)

/-- `remove_from_cart` handler body (lines 238-262), for an input that passed
the zod boundary. -/
def removeFromCart (cart : Cart) (name : String) (quantity : ℤ) :
    ToolResult × Cart :=
  let key := name.trim.toLower
  match mapGet cart key with
  | none =>
      let msg := "Cette pizza n\x27est pas dans le panier: \"" ++ name ++ "\""
      ({ content := [msg], isError := true }, cart)
  | some current =>
      let current := { current with quantity := current.quantity - quantity }
      let msg := "Retiré: " ++ toString quantity ++ " × " ++ current.name
      if current.quantity ≤ 0 then
        ({ content := [msg], isError := false }, mapDelete cart key)
      else
        ({ content := [msg], isError := false }, mapSet cart key current)

/-- A JS number value: either NaN, ±Infinity, or a finite value (modelled
exactly as a rational). -/
inductive JsNum where
  | nan : JsNum
  | inf : JsNum
  | negInf : JsNum
  | num : ℚ → JsNum
  deriving Repr, DecidableEq

/-- The zod quantity boundary `z.number().int().min(1).default(1)`
(lines 190-193 and 233-236): a missing field defaults to 1; a present field
must be a finite integer ≥ 1, otherwise validation fails and the handler is
never invoked.  `none` result = rejected at the boundary. -/
def zodQuantity (raw : Option JsNum) : Option ℤ :=
  match raw with
  | none => some 1
  | some (JsNum.num q) => if q.den = 1 ∧ 1 ≤ q then some q.num else none
  | some _ => none

/-- A raw tool call hitting the cart: the unvalidated `quantity` field is
carried as `Option JsNum` (absent / arbitrary JS number). -/
inductive RawOp where
  | add : String → Option JsNum → RawOp
  | remove : String → Option JsNum → RawOp
  deriving Repr, DecidableEq

/-- Dispatch one raw tool call: the zod boundary validates first; a rejected
input never reaches the handler, so the cart is unchanged. -/
def stepOp (pizzas : List Pizza) (cart : Cart) (op : RawOp) : Cart :=
  match op with
  | RawOp.add name rawQty =>
      match zodQuantity rawQty with
      | none => cart
      | some q => (addToCart pizzas cart name q).2
  | RawOp.remove name rawQty =>
      match zodQuantity rawQty with
      | none => cart
      | some q => (removeFromCart cart name q).2

/-- Run a sequence of raw tool calls from a starting cart. -/
def runOps (pizzas : List Pizza) (ops : List RawOp) (cart : Cart) : Cart :=
  ops.foldl (stepOp pizzas) cart

/-- `list_pizzas` handler (lines 156-181): sequential optional filters.
Note `excludeAllergens?.length` / `includeIngredients?.length`: a filter
given as an empty list is skipped (length 0 is falsy in JS). -/
def listPizzas (pizzas : List Pizza) (maxPrice : Option ℚ)
    (excludeAllergens : Option (List String))
    (includeIngredients : Option (List String)) : List Pizza :=
  let list := pizzas
  let list := match maxPrice with
    | some m => list.filter (fun p => p.price ≤ m)
    | none => list
  let list := match excludeAllergens with
    | some ex =>
        if ex.length ≠ 0 then
          let exl := ex.map String.toLower
          list.filter (fun p =>
            !(p.allergens.any (fun a => exl.contains a.toLower)))
        else list
    | none => list
  let list := match includeIngredients with
    | some inc =>
        if inc.length ≠ 0 then
          let need := inc.map String.toLower
          list.filter (fun p =>
            let hav := p.ingredients.map String.toLower
            need.all (fun n => hav.contains n))
        else list
    | none => list
  list

/-- The structured payload of a `list_pizzas` response: the filtered list
(serialized as JSON in the source) plus the error flag of the response
envelope. -/
structure ListResult where
  pizzas : List Pizza
  isError : Bool
  deriving Repr, DecidableEq

/-- The `list_pizzas` handler result (lines 176-181): always a success
response (`isError` never set), even when the filtered list is empty. -/
def listPizzasResult (pizzas : List Pizza) (maxPrice : Option ℚ)
    (excludeAllergens : Option (List String))
    (includeIngredients : Option (List String)) : ListResult :=
  { pizzas := listPizzas pizzas maxPrice excludeAllergens includeIngredients,
    isError := false }

/-- The subtotal formula as the SPEC states it (claim C1): round-to-2-decimals
of the sum over all lines of the unrounded `unitPrice × quantity`. -/
def specSubtotal (cart : Cart) : ℚ :=
  round2 ((cart.map (fun kv => kv.2.unitPrice * (kv.2.quantity : ℚ))).sum)

/-! ### Concrete data used by counterexamples and witnesses -/

/-- A two-pizza catalog whose prices have a third decimal, exercising the
rounding path (`1.004` is entered in a catalog file as `1.004`). -/
def exCatalog : List Pizza :=
  [{ name := "Regina", price := 1004/1000, ingredients := ["tomate"],
     allergens := ["gluten"] },
   { name := "Bianca", price := 1004/1000, ingredients := ["creme"],
     allergens := ["lactose"] }]

/-- The cart reached from empty by `add_to_cart("Regina", 1)` then
`add_to_cart("Bianca", 1)`. -/
def exCart : Cart :=
  runOps exCatalog
    [RawOp.add "Regina" (some (JsNum.num 1)),
     RawOp.add "Bianca" (some (JsNum.num 1))] []

/-- Number of cart lines stored under a given normalized key. -/
def countKey (m : List (String × CartItem)) (k : String) : Nat :=
  (m.filter (fun kv => kv.1 = k)).length

/-- A one-pizza catalog matching the spec's running example. -/
def margCatalog : List Pizza :=
  [{ name := "Margherita", price := 8, ingredients := ["tomate", "mozzarella"],
     allergens := ["gluten", "lactose"] }]

/-- The filter predicate as claim C7 words it: price within `maxPrice` when
given; no allergen (case-insensitively) among `excludeAllergens` when given;
every `includeIngredients` entry (case-insensitively) among the pizza's
ingredients when given. -/
def specListPred (maxPrice : Option ℚ) (excludeAllergens : Option (List String))
    (includeIngredients : Option (List String)) (p : Pizza) : Bool :=
  (match maxPrice with
    | some m => decide (p.price ≤ m)
    | none => true)
  && (match excludeAllergens with
    | some ex => !(p.allergens.any (fun a =>
        (ex.map String.toLower).contains a.toLower))
    | none => true)
  && (match includeIngredients with
    | some inc => (inc.map String.toLower).all (fun n =>
        (p.ingredients.map String.toLower).contains n)
    | none => true)

/-- `String.replaceAll` for a single-character pattern, on the underlying
character list. -/
def replaceAllChar (c : Char) (rep : List Char) : List Char → List Char
  | [] => []
  | x :: xs =>
      if x = c then rep ++ replaceAllChar c rep xs
      else x :: replaceAllChar c rep xs

/-- `escapeHtml` (lines 366-373): chained `replaceAll` of `&`, `<`, `>`,
the double quote (codepoint 34) and the apostrophe (codepoint 39), in the
source's order. -/
def escapeHtml (s : String) : String :=
  ⟨replaceAllChar (Char.ofNat 39) "&#39;".data
    (replaceAllChar (Char.ofNat 34) "&quot;".data
      (replaceAllChar (Char.ofNat 62) "&gt;".data
        (replaceAllChar (Char.ofNat 60) "&lt;".data
          (replaceAllChar (Char.ofNat 38) "&amp;".data s.data))))⟩

/-- JS `x.toFixed(2)`: the integer closest to `x·100` (ties towards +∞),
printed with two decimals.  (Sign handling follows the rounded integer;
cart values are non-negative.) -/
def toFixed2 (q : ℚ) : String :=
  let n : ℤ := ⌊q * 100 + 1 / 2⌋
  let sign := if n < 0 then "-" else ""
  let a := n.natAbs
  sign ++ toString (a / 100) ++ "." ++
    (if a % 100 < 10 then "0" else "") ++ toString (a % 100)

/-- One `<tr>` of the cart table (lines 309-315). -/
def renderRow (currency : String) (it : DisplayItem) : String :=
  "\n      <tr>\n        <td>" ++ escapeHtml it.name ++
  "</td>\n        <td style=\"text-align:right\">" ++
  toFixed2 it.unitPrice ++ " " ++ currency ++
  "</td>\n        <td style=\"text-align:right\">" ++
  toString it.quantity ++
  "</td>\n        <td style=\"text-align:right\">" ++
  toFixed2 it.lineTotal ++ " " ++ currency ++ "</td>\n      </tr>"

/-- The placeholder row of an empty cart (line 306). -/
def emptyRowHtml : String :=
  "<tr><td colspan=\"4\" " ++
  "style=\"text-align:center;padding:16px;color:#666\">" ++
  "Panier vide</td></tr>"

/-- The fixed template before `${rows}` (lines 319-352), braces escaped. -/
def htmlHead : String :=
  "<!doctype html>\n<html lang=\"fr\">\n<head>\n" ++
  "  <meta charset=\"utf-8\">\n" ++
  "  <title>Panier — mcp-js</title>\n" ++
  "  <meta http-equiv=\"refresh\" content=\"10\"> " ++
  "<!-- auto-refresh toutes les 10s -->\n" ++
  "  <meta name=\"viewport\" content=\"width=device-width, " ++
  "initial-scale=1\">\n" ++
  "  <style>\n" ++
  "    :root \x7b font-family: system-ui, -apple-system, Segoe UI, " ++
  "Roboto, Ubuntu, Cantarell, \x27Helvetica Neue\x27, Arial, " ++
  "\x27Noto Sans\x27, \x27Apple Color Emoji\x27," ++
  "\x27Segoe UI Emoji\x27; \x7d\n" ++
  "    body \x7b margin: 24px; color: #111; \x7d\n" ++
  "    h1 \x7b font-size: 20px; margin: 0 0 12px; \x7d\n" ++
  "    .card \x7b max-width: 800px; border: 1px solid #e5e7eb; " ++
  "border-radius: 12px; padding: 16px; box-shadow: 0 1px 2px " ++
  "rgba(0,0,0,.04); background: #fff; \x7d\n" ++
  "    table \x7b width: 100%; border-collapse: collapse; \x7d\n" ++
  "    th, td \x7b padding: 8px 10px; border-bottom: 1px solid #eee; \x7d\n" ++
  "    th \x7b text-align: left; font-weight: 600; color: #374151; \x7d\n" ++
  "    tfoot td \x7b font-weight: 700; \x7d\n" ++
  "    .muted \x7b color: #6b7280; font-size: 12px; margin-top: 8px; \x7d\n" ++
  "    code \x7b background: #f3f4f6; padding: 2px 6px; " ++
  "border-radius: 6px; \x7d\n" ++
  "  </style>\n</head>\n<body>\n" ++
  "  <div class=\"card\">\n" ++
  "    <h1>🛒 Panier</h1>\n" ++
  "    <table>\n      <thead>\n        <tr>\n" ++
  "          <th>Pizza</th>\n" ++
  "          <th style=\"text-align:right\">Prix unitaire</th>\n" ++
  "          <th style=\"text-align:right\">Qté</th>\n" ++
  "          <th style=\"text-align:right\">Total ligne</th>\n" ++
  "        </tr>\n      </thead>\n      <tbody>\n        "

/-- The fixed template between `${rows}` and `${subtotal.toFixed(2)}`
(lines 353-357). -/
def htmlAfterRows : String :=
  "\n      </tbody>\n      <tfoot>\n        <tr>\n" ++
  "          <td colspan=\"3\" style=\"text-align:right\">Sous-total</td>\n" ++
  "          <td style=\"text-align:right\">"

/-- The fixed template after the subtotal cell (lines 357-363). -/
def htmlTail : String :=
  "</td>\n        </tr>\n      </tfoot>\n    </table>\n" ++
  "  </div>\n</body>\n</html>"

/-- `renderCartHtml` (lines 302-364): the full page. -/
def renderCartHtml (cart : Cart) : String :=
  let t := cartTotals cart
  let rows :=
    if t.items.length = 0 then emptyRowHtml
    else String.join (t.items.map (renderRow t.currency))
  htmlHead ++ rows ++ htmlAfterRows ++
    toFixed2 t.subtotal ++ " " ++ t.currency ++ htmlTail

/-- `pat` starts the character list. -/
def listStartsWith : List Char → List Char → Bool
  | [], _ => true
  | _ :: _, [] => false
  | p :: ps, x :: xs => p = x && listStartsWith ps xs

/-- `pat` occurs as a contiguous substring of the character list. -/
def listHasSub (pat : List Char) : List Char → Bool
  | [] => pat.isEmpty
  | x :: rest => listStartsWith pat (x :: rest) || listHasSub pat rest

/-- Substring test on strings. -/
def strHasSub (pat s : String) : Bool :=
  listHasSub pat.data s.data

/-- A cart holding one pizza literally named `<script>`. -/
def scriptCart : Cart :=
  [("<script>", { name := "<script>", unitPrice := 10, quantity := 1 })]

/-! ### Catalog loading (`loadPizzas`, lines 46-97)

The JSON branch hands each parsed record to `normalizePizza`; the
line-oriented branch parses fields itself and rejects NaN prices.  Record
fields coming out of `JSON.parse` (or absent) are modelled by `JVal`;
array-valued and object-valued scalar fields are not modelled. -/

/-- A JS value sitting in a record field: absent (`undefined`), `null`, a
boolean, a number, or a string. -/
inductive JVal where
  | undef : JVal
  | null : JVal
  | bool : Bool → JVal
  | num : JsNum → JVal
  | str : String → JVal
  deriving Repr, DecidableEq

/-- A digit character. -/
def isDigitChar (c : Char) : Bool := '0' ≤ c ∧ c ≤ '9'

/-- Whitespace stripped by the JS `Number(string)` conversion (and by
`String.prototype.trim`): ASCII blanks, NBSP and the BOM. -/
def isJsWhitespace (c : Char) : Bool :=
  c = ' ' ∨ c = '\t' ∨ c = '\n' ∨ c = '\r' ∨ c = '\x0b' ∨ c = '\x0c'
    ∨ c = Char.ofNat 160 ∨ c = Char.ofNat 65279

/-- Strip JS whitespace from both ends of a character list. -/
def trimJsWs (l : List Char) : List Char :=
  ((l.dropWhile isJsWhitespace).reverse.dropWhile isJsWhitespace).reverse

/-- Numeric value of a digit list, base 10. -/
def digitsToNat (l : List Char) : Nat :=
  l.foldl (fun a c => a * 10 + (c.toNat - 48)) 0

/-- A digit of the given radix (hex letters allowed in both cases). -/
def radixDigit (base : Nat) (c : Char) : Option Nat :=
  let v :=
    if '0' ≤ c ∧ c ≤ '9' then some (c.toNat - 48)
    else if 'a' ≤ c ∧ c ≤ 'f' then some (c.toNat - 87)
    else if 'A' ≤ c ∧ c ≤ 'F' then some (c.toNat - 55)
    else none
  match v with
  | some v => if v < base then some v else none
  | none => none

/-- A `0x`/`0o`/`0b` literal body: one or more digits of the radix. -/
def parseRadix (base : Nat) (l : List Char) : JsNum :=
  if l ≠ [] ∧ l.all (fun c => (radixDigit base c).isSome) then
    JsNum.num ((l.foldl (fun a c => a * base + (radixDigit base c).getD 0) 0
      : Nat) : ℚ)
  else JsNum.nan

/-- The exponent suffix of a decimal literal: empty, or `e`/`E` with an
optional sign and one or more digits.  `none` = trailing garbage = NaN. -/
def parseExp : List Char → Option ℤ
  | [] => some 0
  | c :: rest =>
      if c = 'e' ∨ c = 'E' then
        match rest with
        | '+' :: ds =>
            if ds ≠ [] ∧ ds.all isDigitChar then some (digitsToNat ds)
            else none
        | '-' :: ds =>
            if ds ≠ [] ∧ ds.all isDigitChar then some (-(digitsToNat ds : ℤ))
            else none
        | ds =>
            if ds ≠ [] ∧ ds.all isDigitChar then some (digitsToNat ds)
            else none
      else none

/-- An unsigned `StrDecimalLiteral`: `Infinity`, or digits with an optional
fraction and exponent; at least one digit must be present. -/
def parseUnsignedDec (l : List Char) (neg : Bool) : JsNum :=
  if l = "Infinity".data then (if neg then JsNum.negInf else JsNum.inf)
  else
    let intPart := l.takeWhile isDigitChar
    let rest1 := l.dropWhile isDigitChar
    let fracPart :=
      match rest1 with
      | '.' :: r => r.takeWhile isDigitChar
      | _ => []
    let rest2 :=
      match rest1 with
      | '.' :: r => r.dropWhile isDigitChar
      | _ => rest1
    match parseExp rest2 with
    | none => JsNum.nan
    | some e =>
        if intPart = [] ∧ fracPart = [] then JsNum.nan
        else
          let mag : ℚ :=
            ((digitsToNat intPart : ℚ)
                + (digitsToNat fracPart : ℚ) / ((10 : ℚ) ^ fracPart.length))
              * ((10 : ℚ) ^ (e : ℤ))
          JsNum.num (if neg then -mag else mag)

/-- A signed `StrDecimalLiteral`. -/
def parseSignedDec (l : List Char) : JsNum :=
  match l with
  | '+' :: rest => parseUnsignedDec rest false
  | '-' :: rest => parseUnsignedDec rest true
  | _ => parseUnsignedDec l false

/-- A `StrNumericLiteral`: a radix-prefixed integer (no sign allowed) or a
signed decimal literal. -/
def parseStrNumeric (l : List Char) : JsNum :=
  match l with
  | '0' :: c :: rest =>
      if c = 'x' ∨ c = 'X' then parseRadix 16 rest
      else if c = 'o' ∨ c = 'O' then parseRadix 8 rest
      else if c = 'b' ∨ c = 'B' then parseRadix 2 rest
      else parseSignedDec l
  | _ => parseSignedDec l

/-- JS `Number(string)`: trim, empty means 0, otherwise the
`StrNumericLiteral` grammar; anything else is NaN. -/
def jsStringToNumber (s : String) : JsNum :=
  match trimJsWs s.data with
  | [] => JsNum.num 0
  | l => parseStrNumeric l

/-- JS `Number(x)` on a record field (`undefined` → NaN, `null` → 0,
booleans → 0/1, numbers unchanged, strings via the string grammar). -/
def jsToNumber : JVal → JsNum
  | JVal.undef => JsNum.nan
  | JVal.null => JsNum.num 0
  | JVal.bool b => JsNum.num (if b then 1 else 0)
  | JVal.num n => n
  | JVal.str s => jsStringToNumber s

/-- JS number-to-string, used only through `String(x)` on non-numeric
fields in the claims; the exact decimal rendering of a finite number is not
modelled (no claim depends on it). -/
def jsNumToString (n : JsNum) : String :=
  match n with
  | JsNum.nan => "NaN"
  | JsNum.inf => "Infinity"
  | JsNum.negInf => "-Infinity"
  | JsNum.num q => if q.den = 1 then toString q.num else toString q

/-- JS `String(x)`. -/
def jsToString : JVal → String
  | JVal.undef => "undefined"
  | JVal.null => "null"
  | JVal.bool b => if b then "true" else "false"
  | JVal.num n => jsNumToString n
  | JVal.str s => s

/-- A record as handed to `normalizePizza`: `ingredients`/`allergens` carry
`some` when the field is an array (`Array.isArray` true), `none`
otherwise. -/
structure RawPizza where
  name : JVal
  price : JVal
  ingredients : Option (List JVal)
  allergens : Option (List JVal)
  deriving Repr, DecidableEq

/-- A pizza produced by the loader (price still a raw JS number, possibly
NaN on the JSON path). -/
structure LoadedPizza where
  name : String
  price : JsNum
  ingredients : List String
  allergens : List String
  deriving Repr, DecidableEq

/-- `normalizePizza` (lines 86-97): trims the stringified name, coerces the
price with `Number(...)` (NO NaN check), and maps non-arrays to `[]`. -/
def normalizePizza (p : RawPizza) : LoadedPizza :=
  { name := (jsToString p.name).trim
    price := jsToNumber p.price
    ingredients := match p.ingredients with
      | some l => l.map jsToString
      | none => []
    allergens := match p.allergens with
      | some l => l.map jsToString
      | none => [] }

/-- The JSON branch of `loadPizzas` (lines 48-52), after `JSON.parse`
produced an array: every record is normalized; no format check at all. -/
def loadPizzasJson (data : List RawPizza) : List LoadedPizza :=
  data.map normalizePizza

/-- `splitList` (lines 79-84). -/
def splitList (s : String) : List String :=
  ((s.splitOn ",").map String.trim).filter (fun x => x ≠ "")

/-- The loader's thrown `Error`s for the line-oriented format, with their
`Ligne ${idx + 1}` payloads (lines 61-70). -/
inductive CatalogFormatError where
  | fieldCount : Nat → CatalogFormatError
  | invalidPrice : Nat → String → CatalogFormatError
  deriving Repr, DecidableEq

/-- The line number carried by a loader error message. -/
def CatalogFormatError.ligne : CatalogFormatError → Nat
  | CatalogFormatError.fieldCount n => n
  | CatalogFormatError.invalidPrice n _ => n

/-- JS `priceStr.replace(",", ".")`: only the FIRST comma is replaced. -/
def replaceFirstComma : List Char → List Char
  | [] => []
  | c :: rest =>
      if c = ',' then '.' :: rest else c :: replaceFirstComma rest

/-- String wrapper of `replaceFirstComma`. -/
def replaceFirstCommaStr (s : String) : String :=
  ⟨replaceFirstComma s.data⟩

/-- The text branch's line preprocessing (lines 54-57): split on newlines,
trim, drop empty and `#`-comment lines.  (`\r` of a CRLF is removed by the
trim.) -/
def filteredLines (raw : String) : List String :=
  ((raw.splitOn "\n").map String.trim).filter
    (fun l => (l != "") && !(l.startsWith "#"))

/-- One line of the text format (lines 59-74): at least 4 `|` fields, a
non-NaN price after first-comma→dot replacement, then `normalizePizza`.
`idx` is the position among the FILTERED lines. -/
def parseTextLine (idx : Nat) (line : String) :
    Except CatalogFormatError LoadedPizza :=
  let parts := (line.splitOn "|").map String.trim
  if parts.length < 4 then
    Except.error (CatalogFormatError.fieldCount (idx + 1))
  else
    match parts with
    | name :: priceStr :: ingredientsStr :: allergensStr :: _ =>
        let price := jsStringToNumber (replaceFirstCommaStr priceStr)
        if price = JsNum.nan then
          Except.error (CatalogFormatError.invalidPrice (idx + 1) priceStr)
        else
          Except.ok (normalizePizza
            { name := JVal.str name
              price := JVal.num price
              ingredients := some ((splitList ingredientsStr).map JVal.str)
              allergens := some ((splitList allergensStr).map JVal.str) })
    | _ => Except.error (CatalogFormatError.fieldCount (idx + 1))

/-- `lines.map((line, idx) => ...)` with a throwing callback: the first bad
line aborts the whole load. -/
def mapIdxExcept {α β ε : Type} (f : Nat → α → Except ε β) :
    Nat → List α → Except ε (List β)
  | _, [] => Except.ok []
  | i, a :: as =>
      match f i a with
      | Except.error e => Except.error e
      | Except.ok b =>
          match mapIdxExcept f (i + 1) as with
          | Except.error e => Except.error e
          | Except.ok bs => Except.ok (b :: bs)

/-- The text branch of `loadPizzas` (lines 54-76). -/
def loadPizzasText (raw : String) :
    Except CatalogFormatError (List LoadedPizza) :=
  mapIdxExcept parseTextLine 0 (filteredLines raw)

/-- Whether a (filtered) line passes both checks of `parseTextLine`. -/
def lineOk (line : String) : Bool :=
  match (line.splitOn "|").map String.trim with
  | _ :: priceStr :: _ :: _ :: _ =>
      if jsStringToNumber (replaceFirstCommaStr priceStr) = JsNum.nan
      then false else true
  | _ => false

/-! #### End of definitions -/

/-! ### Helper lemmas -/

theorem foldl_add_lineTotal (l : List DisplayItem) (a : ℚ) :
    l.foldl (fun s it => s + it.lineTotal) a
      = a + (l.map (fun it => it.lineTotal)).sum := by
  induction l generalizing a with
  | nil => simp
  | cons x xs ih =>
      simp only [List.foldl_cons, List.map_cons, List.sum_cons, ih, add_assoc]

/-! ### Claim C1 -/

/-- C1 counterexample: in the cart reached by adding one `Regina` and one
`Bianca` (both priced `1.004`), the code's subtotal is `2.00` (it sums the
pre-rounded line totals `1.00 + 1.00`), while the claim's formula — round2 of
the sum of the unrounded `unitPrice × quantity` — gives `round2 2.008 = 2.01`.
So the subtotal IS computed by summing the per-line pre-rounded `lineTotal`
values, contradicting the claim. -/
theorem c1_counterexample :
    exCart ≠ [] ∧
    (cartTotals exCart).subtotal = 2 ∧
    specSubtotal exCart = 201/100 ∧
    (cartTotals exCart).subtotal ≠ specSubtotal exCart := by
  refine ⟨?_, ?_, ?_, ?_⟩ <;> with_unfolding_all decide

/-- C1 (amended): for every non-empty cart, the subtotal returned by
`snapshot()`/`get_cart` equals round-to-2-decimals of the sum of the per-line
pre-rounded `lineTotal` values (NOT of the unrounded products), and each
displayed `lineTotal` is independently rounded to 2 decimals. -/
theorem c1_subtotal_sums_rounded_lines (cart : Cart) (_hne : cart ≠ []) :
    (cartTotals cart).subtotal
        = round2 (((cartTotals cart).items.map (fun it => it.lineTotal)).sum)
      ∧ ∀ it ∈ (cartTotals cart).items,
          it.lineTotal = round2 (it.unitPrice * (it.quantity : ℚ)) := by
  constructor
  · simp only [cartTotals, foldl_add_lineTotal, zero_add]
  · intro it hit
    simp only [cartTotals, cartToArray, List.mem_map] at hit
    obtain ⟨kv, _, rfl⟩ := hit
    rfl

/-- Witness for C1 (amended) at the concrete two-line cart. -/
theorem c1_witness :
    (cartTotals exCart).subtotal
      = round2 (((cartTotals exCart).items.map (fun it => it.lineTotal)).sum) :=
  (c1_subtotal_sums_rounded_lines exCart (by with_unfolding_all decide)).1

/-! ### Map helper lemmas -/

theorem mem_mapSet {m : List (String × CartItem)} {k : String} {v : CartItem}
    {kv : String × CartItem} (h : kv ∈ mapSet m k v) :
    kv = (k, v) ∨ kv ∈ m := by
  induction m with
  | nil =>
      simp only [mapSet, List.mem_singleton] at h
      exact Or.inl h
  | cons hd tl ih =>
      simp only [mapSet] at h
      by_cases hk : hd.1 = k
      · rw [if_pos hk] at h
        rcases List.mem_cons.mp h with h1 | h1
        · exact Or.inl h1
        · exact Or.inr (List.mem_cons_of_mem hd h1)
      · rw [if_neg hk] at h
        rcases List.mem_cons.mp h with h1 | h1
        · exact Or.inr (h1 ▸ List.mem_cons_self hd tl)
        · rcases ih h1 with h2 | h2
          · exact Or.inl h2
          · exact Or.inr (List.mem_cons_of_mem hd h2)

theorem mem_mapDelete {m : List (String × CartItem)} {k : String}
    {kv : String × CartItem} (h : kv ∈ mapDelete m k) : kv ∈ m := by
  induction m with
  | nil => simp [mapDelete] at h
  | cons hd tl ih =>
      simp only [mapDelete] at h
      by_cases hk : hd.1 = k
      · rw [if_pos hk] at h
        exact List.mem_cons_of_mem hd h
      · rw [if_neg hk] at h
        rcases List.mem_cons.mp h with h1 | h1
        · exact h1 ▸ List.mem_cons_self hd tl
        · exact List.mem_cons_of_mem hd (ih h1)

theorem mapGet_some_mem {m : List (String × CartItem)} {k : String}
    {it : CartItem} (h : mapGet m k = some it) : (k, it) ∈ m := by
  simp only [mapGet, Option.map_eq_some'] at h
  obtain ⟨kv, hfind, hsnd⟩ := h
  have hmem := List.mem_of_find?_eq_some hfind
  have hkey : kv.1 = k := by
    have := List.find?_some hfind
    exact of_decide_eq_true this
  have : kv = (k, it) := by
    cases kv
    simp_all
  exact this ▸ hmem

/-- The zod boundary only lets positive integers through. -/
theorem zodQuantity_pos {raw : Option JsNum} {q : ℤ}
    (h : zodQuantity raw = some q) : 1 ≤ q := by
  match raw with
  | none =>
      simp only [zodQuantity, Option.some.injEq] at h
      omega
  | some JsNum.nan => simp [zodQuantity] at h
  | some JsNum.inf => simp [zodQuantity] at h
  | some JsNum.negInf => simp [zodQuantity] at h
  | some (JsNum.num x) =>
      simp only [zodQuantity] at h
      split at h
      · rename_i hcond
        obtain ⟨hden, hle⟩ := hcond
        have hx : (x.num : ℚ) = x := by
          conv_rhs => rw [← Rat.num_div_den x]
          rw [hden]
          simp
        have : (1 : ℚ) ≤ (x.num : ℚ) := by rw [hx]; exact hle
        have h1 : (1 : ℤ) ≤ x.num := by exact_mod_cast this
        simp only [Option.some.injEq] at h
        omega
      · exact absurd h (by simp)

/-! ### Claim C2 -/

/-- C2: starting from the empty cart, any sequence of `add_to_cart` /
`remove_from_cart` calls — with arbitrary raw inputs, validation included —
never leaves a line with quantity ≤ 0 in the cart: a decrement reaching 0 or
below deletes the line entirely. -/
theorem c2_quantity_always_positive (pizzas : List Pizza) (ops : List RawOp) :
    ∀ kv ∈ runOps pizzas ops [], 0 < kv.2.quantity := by
  suffices h : ∀ ops (cart : Cart), (∀ kv ∈ cart, 0 < kv.2.quantity) →
      ∀ kv ∈ runOps pizzas ops cart, 0 < kv.2.quantity by
    exact h ops [] (by intro kv hkv; simp at hkv)
  intro ops
  induction ops with
  | nil => intro cart hinv kv hkv; exact hinv kv hkv
  | cons op rest ih =>
      intro cart hinv kv hkv
      rw [runOps, List.foldl_cons] at hkv
      refine ih (stepOp pizzas cart op) ?_ kv hkv
      clear hkv kv ih
      intro kv hkv
      cases op with
      | add name raw =>
          rw [stepOp] at hkv
          cases hzq : zodQuantity raw with
          | none => rw [hzq] at hkv; exact hinv kv hkv
          | some q =>
              rw [hzq] at hkv
              dsimp only at hkv
              have hq : 1 ≤ q := zodQuantity_pos hzq
              rw [addToCart.eq_def] at hkv
              cases hfind : findPizzaByName pizzas name with
              | none => rw [hfind] at hkv; exact hinv kv hkv
              | some pizza =>
                  rw [hfind] at hkv
                  simp only at hkv
                  rcases mem_mapSet hkv with rfl | hmem
                  · simp only
                    cases hget : mapGet cart (pizza.name.toLower) with
                    | none =>
                        simp only [Option.getD_none]
                        omega
                    | some it =>
                        simp only [Option.getD_some]
                        have : 0 < it.quantity :=
                          hinv (pizza.name.toLower, it) (mapGet_some_mem hget)
                        omega
                  · exact hinv kv hmem
      | remove name raw =>
          rw [stepOp] at hkv
          cases hzq : zodQuantity raw with
          | none => rw [hzq] at hkv; exact hinv kv hkv
          | some q =>
              rw [hzq] at hkv
              dsimp only at hkv
              rw [removeFromCart.eq_def] at hkv
              dsimp only at hkv
              cases hget : mapGet cart (name.trim.toLower) with
              | none =>
                  rw [hget] at hkv
                  exact hinv kv hkv
              | some cur =>
                  rw [hget] at hkv
                  dsimp only at hkv
                  by_cases hle : cur.quantity - q ≤ 0
                  · rw [if_pos hle] at hkv
                    exact hinv kv (mem_mapDelete hkv)
                  · rw [if_neg hle] at hkv
                    rcases mem_mapSet hkv with rfl | hmem
                    · simp only
                      omega
                    · exact hinv kv hmem

/-- Witness for C2: after `add_to_cart("Regina", 1)` then
`add_to_cart("Bianca", 1)`, the stored `Regina` line has positive quantity. -/
theorem c2_witness :
    0 < (("regina",
      { name := "Regina", unitPrice := 1004/1000, quantity := 1 }) :
        String × CartItem).2.quantity :=
  c2_quantity_always_positive exCatalog
    [RawOp.add "Regina" (some (JsNum.num 1)),
     RawOp.add "Bianca" (some (JsNum.num 1))]
    ("regina", { name := "Regina", unitPrice := 1004/1000, quantity := 1 })
    (by with_unfolding_all decide)

theorem mapGet_cons (hd : String × CartItem) (tl : List (String × CartItem))
    (k : String) :
    mapGet (hd :: tl) k = if hd.1 = k then some hd.2 else mapGet tl k := by
  by_cases h : hd.1 = k
  · simp [mapGet, List.find?_cons_of_pos, h]
  · simp [mapGet, List.find?_cons_of_neg, h]

theorem mapGet_mapSet_self (m : List (String × CartItem)) (k : String)
    (v : CartItem) : mapGet (mapSet m k v) k = some v := by
  induction m with
  | nil => simp [mapSet, mapGet]
  | cons hd tl ih =>
      rw [mapSet]
      by_cases h : hd.1 = k
      · rw [if_pos h, mapGet_cons]
        simp
      · rw [if_neg h, mapGet_cons, if_neg h]
        exact ih

theorem countKey_of_get_none {m : List (String × CartItem)} {k : String}
    (h : mapGet m k = none) : countKey m k = 0 := by
  induction m with
  | nil => rfl
  | cons hd tl ih =>
      rw [mapGet_cons] at h
      by_cases hk : hd.1 = k
      · rw [if_pos hk] at h
        exact absurd h (by simp)
      · rw [if_neg hk] at h
        rw [countKey, List.filter_cons, if_neg (by simp [hk])]
        exact ih h

theorem countKey_mapSet_new {m : List (String × CartItem)} {k : String}
    (v : CartItem) (h : mapGet m k = none) :
    countKey (mapSet m k v) k = countKey m k + 1 := by
  induction m with
  | nil => simp [mapSet, countKey]
  | cons hd tl ih =>
      rw [mapGet_cons] at h
      by_cases hk : hd.1 = k
      · rw [if_pos hk] at h
        exact absurd h (by simp)
      · rw [if_neg hk] at h
        rw [mapSet, if_neg hk, countKey, List.filter_cons,
          if_neg (by simp [hk]), countKey, List.filter_cons,
          if_neg (by simp [hk])]
        exact ih h

theorem countKey_mapSet_old {m : List (String × CartItem)} {k : String}
    (v : CartItem) {it : CartItem} (h : mapGet m k = some it) :
    countKey (mapSet m k v) k = countKey m k := by
  induction m with
  | nil => simp [mapGet] at h
  | cons hd tl ih =>
      rw [mapGet_cons] at h
      by_cases hk : hd.1 = k
      · rw [mapSet, if_pos hk, countKey, countKey, List.filter_cons,
          List.filter_cons]
        simp [hk]
      · rw [if_neg hk] at h
        rw [mapSet, if_neg hk, countKey, countKey, List.filter_cons,
          List.filter_cons, if_neg (by simp [hk]), if_neg (by simp [hk])]
        exact ih h

/-! ### Claim C3 -/

/-- C3: if `name` resolves to a catalog pizza and the cart has no line for it
yet, then adding quantities `q₁` and then `q₂` yields exactly one line for the
pizza, with quantity `q₁ + q₂` and `unitPrice` equal to the catalog price
observed at the first add (the second add does not touch it). -/
theorem c3_add_twice_accumulates (pizzas : List Pizza) (cart : Cart)
    (name : String) (pizza : Pizza) (q₁ q₂ : ℤ)
    (hfind : findPizzaByName pizzas name = some pizza)
    (habsent : mapGet cart pizza.name.toLower = none) :
    mapGet (addToCart pizzas (addToCart pizzas cart name q₁).2 name q₂).2
        pizza.name.toLower
      = some { name := pizza.name, unitPrice := pizza.price,
               quantity := q₁ + q₂ }
    ∧ countKey (addToCart pizzas (addToCart pizzas cart name q₁).2 name q₂).2
        pizza.name.toLower = 1 := by
  have h1 : (addToCart pizzas cart name q₁).2
      = mapSet cart pizza.name.toLower
          { name := pizza.name, unitPrice := pizza.price,
            quantity := 0 + q₁ } := by
    rw [addToCart.eq_def, hfind]
    dsimp only
    rw [habsent]
    rfl
  have hget1 : mapGet (addToCart pizzas cart name q₁).2 pizza.name.toLower
      = some { name := pizza.name, unitPrice := pizza.price,
               quantity := 0 + q₁ } := by
    rw [h1]
    exact mapGet_mapSet_self _ _ _
  have h2 : (addToCart pizzas (addToCart pizzas cart name q₁).2 name q₂).2
      = mapSet (addToCart pizzas cart name q₁).2 pizza.name.toLower
          { name := pizza.name, unitPrice := pizza.price,
            quantity := 0 + q₁ + q₂ } := by
    rw [addToCart.eq_def, hfind]
    dsimp only
    rw [hget1]
    rfl
  refine ⟨?_, ?_⟩
  · rw [h2, mapGet_mapSet_self]
    congr 2
    omega
  · rw [h2, countKey_mapSet_old _ hget1, h1, countKey_mapSet_new _ habsent,
      countKey_of_get_none habsent]

/-- Witness for C3: `add_to_cart("Margherita", 2)` then
`add_to_cart("Margherita", 1)` from the empty cart gives one line with
quantity 3 and `unitPrice` 8. -/
theorem c3_witness :
    mapGet (addToCart margCatalog
        (addToCart margCatalog [] "Margherita" 2).2 "Margherita" 1).2
        ("Margherita" : String).toLower
      = some { name := "Margherita", unitPrice := 8, quantity := 2 + 1 } :=
  (c3_add_twice_accumulates margCatalog [] "Margherita"
    { name := "Margherita", price := 8,
      ingredients := ["tomate", "mozzarella"],
      allergens := ["gluten", "lactose"] } 2 1
    (by with_unfolding_all rfl) (by with_unfolding_all rfl)).1

/-! ### Claim C4 -/

/-- C4: `add_to_cart` with a name matching no catalog pizza, and
`remove_from_cart` with a name whose normalized form matches no cart line,
both return an error-flagged result with a message and leave the cart exactly
unchanged. -/
theorem c4_not_found_errors_leave_cart_unchanged (pizzas : List Pizza)
    (cart : Cart) (name : String) (q : ℤ) :
    (findPizzaByName pizzas name = none →
        (addToCart pizzas cart name q).1.isError = true
      ∧ (addToCart pizzas cart name q).1.content ≠ []
      ∧ (addToCart pizzas cart name q).2 = cart)
    ∧ (mapGet cart name.trim.toLower = none →
        (removeFromCart cart name q).1.isError = true
      ∧ (removeFromCart cart name q).1.content ≠ []
      ∧ (removeFromCart cart name q).2 = cart) := by
  constructor
  · intro h
    rw [addToCart.eq_def, h]
    exact ⟨rfl, by simp, rfl⟩
  · intro h
    rw [removeFromCart.eq_def]
    dsimp only
    rw [h]
    exact ⟨rfl, by simp, rfl⟩

/-- Witness for C4: `add_to_cart("Nonexistent")` and
`remove_from_cart("Nonexistent")` on the empty cart both flag an error and
leave the cart empty. -/
theorem c4_witness :
    ((addToCart margCatalog [] "Nonexistent" 1).1.isError = true
      ∧ (addToCart margCatalog [] "Nonexistent" 1).1.content ≠ []
      ∧ (addToCart margCatalog [] "Nonexistent" 1).2 = [])
    ∧ ((removeFromCart [] "Nonexistent" 1).1.isError = true
      ∧ (removeFromCart [] "Nonexistent" 1).1.content ≠ []
      ∧ (removeFromCart [] "Nonexistent" 1).2 = []) :=
  ⟨(c4_not_found_errors_leave_cart_unchanged margCatalog [] "Nonexistent" 1).1
      (by with_unfolding_all rfl),
   (c4_not_found_errors_leave_cart_unchanged margCatalog [] "Nonexistent" 1).2
      (by with_unfolding_all rfl)⟩

/-! ### Claim C6 -/

/-- C6: at the zod tool boundary, a missing quantity defaults to 1; every
accepted quantity is a positive integer; a non-integer or non-positive (or
non-finite) quantity is rejected; and a rejected input is never applied to
the cart. -/
theorem c6_quantity_boundary :
    zodQuantity none = some 1
    ∧ (∀ raw q, zodQuantity raw = some q → 1 ≤ q)
    ∧ (∀ x : ℚ, x.den ≠ 1 ∨ x < 1 →
        zodQuantity (some (JsNum.num x)) = none)
    ∧ (∀ pizzas cart name raw, zodQuantity raw = none →
        stepOp pizzas cart (RawOp.add name raw) = cart
        ∧ stepOp pizzas cart (RawOp.remove name raw) = cart) := by
  refine ⟨rfl, ?_, ?_, ?_⟩
  · intro raw q h
    exact zodQuantity_pos h
  · intro x h
    rw [zodQuantity]
    rw [if_neg]
    rintro ⟨hden, hle⟩
    rcases h with h | h
    · exact h hden
    · exact absurd hle (not_le.mpr h)
  · intro pizzas cart name raw h
    constructor <;> (rw [stepOp]; rw [h])

/-- Witness for C6 at concrete inputs: quantity 1 is accepted (and positive),
quantity ½ is rejected, and a rejected add leaves the cart unchanged. -/
theorem c6_witness :
    (1 : ℤ) ≤ 1
    ∧ zodQuantity (some (JsNum.num (1/2))) = none
    ∧ stepOp margCatalog [] (RawOp.add "Margherita" (some JsNum.nan)) = [] :=
  ⟨c6_quantity_boundary.2.1 none 1 rfl,
   c6_quantity_boundary.2.2.1 (1/2)
     (Or.inl (by with_unfolding_all decide)),
   (c6_quantity_boundary.2.2.2 margCatalog [] "Margherita"
     (some JsNum.nan) rfl).1⟩

/-! ### Claim C7 -/

theorem list_any_false {α : Type} (l : List α) :
    (l.any fun _ => false) = false := by
  induction l <;> simp_all

/-- C7: `list_pizzas` returns exactly the catalog pizzas passing all the
given optional filters (price cap, allergen exclusion, ingredient
inclusion, each case-insensitive), and an empty result is still a success
(never error-flagged). -/
theorem c7_list_pizzas_exact_filter (pizzas : List Pizza)
    (maxPrice : Option ℚ) (ex inc : Option (List String)) :
    (listPizzasResult pizzas maxPrice ex inc).isError = false
    ∧ (listPizzasResult pizzas maxPrice ex inc).pizzas
        = pizzas.filter (specListPred maxPrice ex inc) := by
  refine ⟨rfl, ?_⟩
  show listPizzas pizzas maxPrice ex inc = _
  rw [listPizzas.eq_def]
  dsimp only
  rcases maxPrice with _ | m <;>
    rcases ex with _ | exl <;>
    rcases inc with _ | incl <;>
    (try rcases exl with _ | ⟨e, exl⟩) <;>
    (try rcases incl with _ | ⟨i, incl⟩) <;>
    simp only [List.length_nil, ne_eq, not_true_eq_false, if_false,
      List.length_cons, Nat.succ_ne_zero, not_false_eq_true, if_true,
      List.filter_filter] <;>
    first
      | (symm
         rw [List.filter_eq_self]
         intro p hp
         simp [specListPred])
      | (apply List.filter_congr
         intro p hp
         simp [specListPred, list_any_false, Bool.and_comm,
           Bool.and_left_comm, Bool.and_assoc])

/-! ### Claim C9 -/

/-- C9: two `snapshot()` calls with no mutation in between return identical
results — same items in the same order and the same subtotal.  Moreover the
snapshot lists the lines in the cart's stored order (the `Map`'s insertion
order). -/
theorem c9_snapshot_stable (pizzas : List Pizza) (ops : List RawOp)
    (s₁ s₂ : Totals)
    (h₁ : s₁ = cartTotals (runOps pizzas ops []))
    (h₂ : s₂ = cartTotals (runOps pizzas ops [])) :
    s₁.items = s₂.items ∧ s₁.subtotal = s₂.subtotal
    ∧ s₁.items.map (fun it => it.name)
        = (runOps pizzas ops []).map (fun kv => kv.2.name) := by
  subst h₁ h₂
  refine ⟨rfl, rfl, ?_⟩
  simp [cartTotals, cartToArray, List.map_map]

/-- Witness for C9 at the concrete two-add history. -/
theorem c9_witness :
    (cartTotals exCart).items = (cartTotals exCart).items
    ∧ (cartTotals exCart).subtotal = (cartTotals exCart).subtotal
    ∧ (cartTotals exCart).items.map (fun it => it.name)
        = exCart.map (fun kv => kv.2.name) :=
  c9_snapshot_stable exCatalog
    [RawOp.add "Regina" (some (JsNum.num 1)),
     RawOp.add "Bianca" (some (JsNum.num 1))]
    (cartTotals exCart) (cartTotals exCart) rfl rfl

/-! ### Claim C8 -/

theorem mem_replaceAllChar {c : Char} {rep l : List Char} {x : Char}
    (hx : x ∈ replaceAllChar c rep l) : x ∈ rep ∨ (x ∈ l ∧ x ≠ c) := by
  induction l with
  | nil => simp [replaceAllChar] at hx
  | cons y ys ih =>
      rw [replaceAllChar] at hx
      by_cases hy : y = c
      · rw [if_pos hy] at hx
        rcases List.mem_append.mp hx with h | h
        · exact Or.inl h
        · rcases ih h with h1 | ⟨h1, h2⟩
          · exact Or.inl h1
          · exact Or.inr ⟨List.mem_cons_of_mem y h1, h2⟩
      · rw [if_neg hy] at hx
        rcases List.mem_cons.mp hx with rfl | h
        · exact Or.inr ⟨List.mem_cons_self x ys, hy⟩
        · rcases ih h with h1 | ⟨h1, h2⟩
          · exact Or.inl h1
          · exact Or.inr ⟨List.mem_cons_of_mem y h1, h2⟩

set_option maxRecDepth 20000 in
/-- C8: `escapeHtml` leaves no raw `<`, `>`, double quote or apostrophe in
its output (each of `& < > " \x27` is replaced by an entity), and the page
rendered for `GET /` / `/cart` over a cart holding a pizza literally named
`<script>` contains the escaped `&lt;script&gt;` and no unescaped
`<script` tag. -/
theorem c8_names_escaped_no_script_tag :
    (∀ s : String, ∀ x ∈ (escapeHtml s).data,
        x ≠ Char.ofNat 60 ∧ x ≠ Char.ofNat 62
      ∧ x ≠ Char.ofNat 34 ∧ x ≠ Char.ofNat 39)
    ∧ strHasSub "&lt;script&gt;" (renderCartHtml scriptCart) = true
    ∧ strHasSub "<script" (renderCartHtml scriptCart) = false := by
  refine ⟨?_, by with_unfolding_all rfl, by with_unfolding_all rfl⟩
  intro s x hx
  rcases mem_replaceAllChar hx with h | ⟨hx, h39⟩
  · simp at h
    rcases h with rfl | rfl | rfl | rfl | rfl <;> decide
  rcases mem_replaceAllChar hx with h | ⟨hx, h34⟩
  · simp at h
    rcases h with rfl | rfl | rfl | rfl | rfl | rfl <;> decide
  rcases mem_replaceAllChar hx with h | ⟨hx, h62⟩
  · simp at h
    rcases h with rfl | rfl | rfl | rfl <;> decide
  rcases mem_replaceAllChar hx with h | ⟨hx, h60⟩
  · simp at h
    rcases h with rfl | rfl | rfl | rfl <;> decide
  exact ⟨h60, h62, h34, h39⟩

/-- Witness for C8: the escaped form of the name `<script>` starts with the
ampersand of `&lt;`, which is none of the four dangerous characters. -/
theorem c8_witness :
    Char.ofNat 38 ≠ Char.ofNat 60 ∧ Char.ofNat 38 ≠ Char.ofNat 62
    ∧ Char.ofNat 38 ≠ Char.ofNat 34 ∧ Char.ofNat 38 ≠ Char.ofNat 39 :=
  c8_names_escaped_no_script_tag.1 "<script>" (Char.ofNat 38)
    (by with_unfolding_all decide)

/-! ### Claim C5 -/

set_option linter.unnecessarySeqFocus false in
theorem parseTextLine_ok_iff (idx : Nat) (line : String) :
    (∃ p, parseTextLine idx line = Except.ok p) ↔ lineOk line = true := by
  rw [parseTextLine, lineOk]
  rcases h : (line.splitOn "|").map String.trim with
    _ | ⟨n, _ | ⟨p, _ | ⟨i, _ | ⟨a, rest⟩⟩⟩⟩ <;>
    simp_all <;>
    split <;>
    simp_all <;>
    first
      | omega
      | (split <;> simp_all)

theorem parseTextLine_err {idx : Nat} {line : String}
    {e : CatalogFormatError} (h : parseTextLine idx line = Except.error e) :
    e.ligne = idx + 1 ∧ lineOk line = false := by
  rw [parseTextLine] at h
  rw [lineOk]
  rcases h2 : (line.splitOn "|").map String.trim with
    _ | ⟨n, _ | ⟨p, _ | ⟨i, _ | ⟨a, rest⟩⟩⟩⟩
  · rw [h2] at h
    simp at h
    subst h
    exact ⟨rfl, rfl⟩
  · rw [h2] at h
    simp at h
    subst h
    exact ⟨rfl, rfl⟩
  · rw [h2] at h
    simp at h
    subst h
    exact ⟨rfl, rfl⟩
  · rw [h2] at h
    simp at h
    subst h
    exact ⟨rfl, rfl⟩
  · rw [h2] at h
    rw [if_neg (by simp only [List.length_cons]; omega)] at h
    dsimp only at h
    by_cases hnan :
        jsStringToNumber (replaceFirstCommaStr p) = JsNum.nan
    · rw [if_pos hnan] at h
      simp only [Except.error.injEq] at h
      subst h
      refine ⟨rfl, ?_⟩
      dsimp only
      rw [if_pos hnan]
    · rw [if_neg hnan] at h
      simp at h

theorem mapIdx_load_spec (l : List String) (i : Nat) :
    ((∃ ps, mapIdxExcept parseTextLine i l = Except.ok ps)
        ↔ ∀ line ∈ l, lineOk line = true)
    ∧ (∀ e, mapIdxExcept parseTextLine i l = Except.error e →
        ∃ j line, e.ligne = i + j + 1 ∧ l[j]? = some line
          ∧ lineOk line = false
          ∧ ∀ k, k < j → ∀ l2, l[k]? = some l2 → lineOk l2 = true) := by
  induction l generalizing i with
  | nil =>
      refine ⟨?_, ?_⟩
      · simp [mapIdxExcept]
      · intro e he
        simp [mapIdxExcept] at he
  | cons hd tl ih =>
      refine ⟨⟨?_, ?_⟩, ?_⟩
      · rintro ⟨ps, hps⟩ line hline
        rw [mapIdxExcept] at hps
        cases hf : parseTextLine i hd with
        | error e => rw [hf] at hps; simp at hps
        | ok b =>
            rw [hf] at hps
            cases hrec : mapIdxExcept parseTextLine (i + 1) tl with
            | error e => rw [hrec] at hps; simp at hps
            | ok bs =>
                rcases List.mem_cons.mp hline with rfl | hline
                · exact (parseTextLine_ok_iff i line).mp ⟨b, hf⟩
                · exact ((ih (i + 1)).1.mp ⟨bs, hrec⟩) line hline
      · intro hall
        obtain ⟨b, hb⟩ := (parseTextLine_ok_iff i hd).mpr
          (hall hd (List.mem_cons_self hd tl))
        obtain ⟨bs, hbs⟩ := (ih (i + 1)).1.mpr
          (fun line hl => hall line (List.mem_cons_of_mem hd hl))
        exact ⟨b :: bs, by rw [mapIdxExcept, hb, hbs]⟩
      · intro e he
        rw [mapIdxExcept] at he
        cases hf : parseTextLine i hd with
        | error e2 =>
            rw [hf] at he
            simp only [Except.error.injEq] at he
            subst he
            obtain ⟨hligne, hbad⟩ := parseTextLine_err hf
            refine ⟨0, hd, by omega, by simp, hbad, ?_⟩
            intro k hk
            omega
        | ok b =>
            rw [hf] at he
            cases hrec : mapIdxExcept parseTextLine (i + 1) tl with
            | ok bs => rw [hrec] at he; simp at he
            | error e2 =>
                rw [hrec] at he
                simp only [Except.error.injEq] at he
                subst he
                obtain ⟨j, line, h1, h2, h3, h4⟩ := (ih (i + 1)).2 e2 hrec
                refine ⟨j + 1, line, by omega, by simpa using h2, h3, ?_⟩
                intro k hk l2 hl2
                cases k with
                | zero =>
                    simp only [List.getElem?_cons_zero, Option.some.injEq]
                      at hl2
                    subst hl2
                    exact (parseTextLine_ok_iff i hd).mp ⟨b, hf⟩
                | succ k2 =>
                    simp only [List.getElem?_cons_succ] at hl2
                    exact h4 k2 (by omega) l2 hl2

/-- C5 counterexample: in the source `"# pizzas\nMargherita"` the offending
line `Margherita` is source line 2, yet the loader reports `Ligne 1` — the
number is its position among the non-empty, non-comment lines, not its line
number in the source. -/
theorem c5_counterexample :
    loadPizzasText "# pizzas\nMargherita"
      = Except.error (CatalogFormatError.fieldCount 1)
    ∧ ("# pizzas\nMargherita".splitOn "\n")[1]? = some "Margherita"
    ∧ loadPizzasText "# pizzas\nMargherita"
        ≠ Except.error (CatalogFormatError.fieldCount 2) := by
  refine ⟨by with_unfolding_all rfl, by with_unfolding_all rfl, ?_⟩
  intro hcontra
  have h1 : loadPizzasText "# pizzas\nMargherita"
      = Except.error (CatalogFormatError.fieldCount 1) := by
    with_unfolding_all rfl
  rw [h1] at hcontra
  have := Except.error.inj hcontra
  simp at this

/-- C5 (amended): the line-oriented load fails with a `CatalogFormatError`
exactly when some non-empty, non-comment line has fewer than 4 `|` fields or
a NaN price (after first-comma→dot replacement); the reported line number is
the offending line's 1-based position among the non-empty, non-comment lines
(which can differ from its line number in the source), and it points at the
first such bad line; otherwise the load succeeds. -/
theorem c5_format_error_iff_bad_filtered_line (raw : String) :
    ((∃ ps, loadPizzasText raw = Except.ok ps)
        ↔ ∀ line ∈ filteredLines raw, lineOk line = true)
    ∧ (∀ e, loadPizzasText raw = Except.error e →
        ∃ j line, e.ligne = j + 1
          ∧ (filteredLines raw)[j]? = some line
          ∧ lineOk line = false
          ∧ ∀ k, k < j → ∀ l2, (filteredLines raw)[k]? = some l2 →
              lineOk l2 = true) := by
  have h := mapIdx_load_spec (filteredLines raw) 0
  refine ⟨h.1, ?_⟩
  intro e he
  obtain ⟨j, line, h1, h2, h3, h4⟩ := h.2 e he
  exact ⟨j, line, by omega, h2, h3, h4⟩

/-- Witness for C5 (amended) at the concrete two-line source. -/
theorem c5_witness :
    ∃ j line, (CatalogFormatError.fieldCount 1).ligne = j + 1
      ∧ (filteredLines "# pizzas\nMargherita")[j]? = some line
      ∧ lineOk line = false
      ∧ ∀ k, k < j → ∀ l2,
          (filteredLines "# pizzas\nMargherita")[k]? = some l2 →
          lineOk l2 = true :=
  (c5_format_error_iff_bad_filtered_line "# pizzas\nMargherita").2
    (CatalogFormatError.fieldCount 1) (by with_unfolding_all rfl)

/-! ### Claim C10 -/

/-- C10: the JSON load path never rejects a record over its price field —
every record is normalized, the resulting price being `Number(field)`
(NaN for a missing field or an unparsable string) — unlike the text path,
which rejects a NaN price with a line-numbered error. -/
theorem c10_json_accepts_any_price (data : List RawPizza) :
    loadPizzasJson data = data.map normalizePizza
    ∧ (loadPizzasJson data).length = data.length
    ∧ (∀ (i : Nat) (r : RawPizza), data[i]? = some r →
        (loadPizzasJson data)[i]? = some (normalizePizza r)
        ∧ (normalizePizza r).price = jsToNumber r.price)
    ∧ (normalizePizza ⟨JVal.str "Ghost", JVal.undef, none, none⟩).price
        = JsNum.nan
    ∧ (normalizePizza ⟨JVal.str "Ghost", JVal.str "abc", none, none⟩).price
        = JsNum.nan
    ∧ loadPizzasText "Ghost | abc | a | b"
        = Except.error (CatalogFormatError.invalidPrice 1 "abc") := by
  refine ⟨rfl, by simp [loadPizzasJson], ?_, by with_unfolding_all rfl,
    by with_unfolding_all rfl, by with_unfolding_all rfl⟩
  intro i r hir
  refine ⟨?_, rfl⟩
  rw [loadPizzasJson, List.getElem?_map, hir]
  rfl

/-- Witness for C10 at a one-record array whose price field is absent. -/
theorem c10_witness :
    (loadPizzasJson [⟨JVal.str "Ghost", JVal.undef, none, none⟩])[0]?
      = some (normalizePizza ⟨JVal.str "Ghost", JVal.undef, none, none⟩) :=
  ((c10_json_accepts_any_price
    [⟨JVal.str "Ghost", JVal.undef, none, none⟩]).2.2.1 0 _ rfl).1

end Pizzeria
